import Mathlib

/-!
Verification of the weather ETL pipeline (`weather_pipeline.py`).

The development shallowly embeds the four pipeline stages the specification
describes — the geocoding resolver `get_lat_lon`, the staging builder
`to_staging_df`, the cleaning stage `transform`, and the MongoDB upsert layer
`load_to_mongo` — and proves the spec's claims about them.

Modelling conventions:
* Python strings are Lean `String`s; `str.upper()`/`str.lower()` are modelled
  character-wise (`pyUpper`/`pyLower`), which agrees with Python on the ASCII
  data involved here.
* JSON optionality (`dict.get`) is `Option`.
* Numeric weather values (float64 in pandas) are modelled as `ℚ`; the claims
  under verification only use nullness and comparison with `0`, never float
  rounding, so this is faithful.
* Hourly timestamps are modelled as an hour counter (`Nat`); the pandas
  `dt.date`/`dt.hour` accessors become division/remainder by 24.
* MongoDB documents are field-ordered association lists, matching BSON's
  ordered fields; `$set` updates a field in place or appends a new field at
  the end, exactly as MongoDB does.  The collection is an association list
  keyed by the `(location_name, time)` filter used by `load_to_mongo`.
* `bulk_write(ops, ordered=False)` is modelled by sequential application of
  the operations; the claims verified here concern record lists with
  pairwise-distinct keys (or explicitly exhibit what duplicate keys do), for
  which the application order is observationally irrelevant.
-/

namespace WeatherPipeline

/-- Python `str.upper()` (character-wise; agrees with Python on ASCII). -/
def pyUpper (s : String) : String := ⟨s.data.map Char.toUpper⟩

/-- Python `str.lower()` (character-wise; agrees with Python on ASCII). -/
def pyLower (s : String) : String := ⟨s.data.map Char.toLower⟩

/-- Python truthiness of an optional string (`None` and `""` are falsy). -/
def truthy : Option String → Bool
  | none => false
  | some s => s != ""

/-- One element of the geocoding response's `results` array.  All JSON fields
the source reads are present; `latitude`/`longitude` are opaque coordinates
(the claims never compute with them, so they are embedded as integers). -/
structure Candidate where
  name : Option String
  country_code : Option String
  country : Option String
  admin1 : Option String
  latitude : Int
  longitude : Int
deriving DecidableEq

/-- The `Location` dataclass.  `country_code` is an `Option` because the source
stores `chosen.get("country_code")`, which can be `None`. -/
structure Location where
  city_input : String
  country_code : Option String
  location_name : String
  latitude : Int
  longitude : Int
deriving DecidableEq

/-- The two resolver failures (`ValueError` raises in the source): no results
at all, or no result in the requested country. -/
inductive GeoError where
  | notFound : GeoError
  | ambiguous : GeoError
deriving DecidableEq

/-- The candidate filter of `get_lat_lon`:
`(x.get("country_code") or "").upper() == cc`, where `cc` is the
already-uppercased requested code. -/
def matchesCC (cc : String) (x : Candidate) : Bool :=
  pyUpper (x.country_code.getD "") = cc

/-- The `score` closure of `get_lat_lon` (translated increment by increment):
+10 for a country-code match, +5 when the country display name lowers to
`"costa rica"` (or with a trailing space), +1 for a truthy `admin1`. -/
def score (cc : String) (x : Candidate) : Nat :=
  (if pyUpper (x.country_code.getD "") = cc then 10 else 0)
  + (if pyLower (x.country.getD "") = "costa rica"
        ∨ pyLower (x.country.getD "") = "costa rica " then 5 else 0)
  + (if truthy x.admin1 then 1 else 0)

/-- Fold keeping the earliest element of maximal measure: a later element
replaces the current best only when strictly greater. -/
def bestAux {α : Type} (f : α → Nat) (b : α) : List α → α
  | [] => b
  | x :: l => bestAux f (if f x > f b then x else b) l

/-- `sorted(candidates, key=score, reverse=True)[0]` for a nonempty list.
CPython's sort is stable and `reverse=True` preserves the order of equal
elements, so the head of the reverse-sorted list is the first element
attaining the maximal key; `bestAux` computes exactly that. -/
def pickBest {α : Type} (f : α → Nat) : List α → Option α
  | [] => none
  | a :: l => some (bestAux f a l)

/-- `", ".join([p for p in pieces if p])`: keep the truthy pieces. -/
def joinPieces (ps : List (Option String)) : String :=
  String.intercalate ", " ((ps.filterMap id).filter (fun p => p != ""))

/-- Construction of the returned `Location` from the chosen candidate. -/
def mkLocation (city : String) (chosen : Candidate) : Location :=
  { city_input := city
    country_code := chosen.country_code
    location_name := joinPieces [chosen.name, chosen.admin1, chosen.country]
    latitude := chosen.latitude
    longitude := chosen.longitude }

/-- `get_lat_lon`, applied to the parsed `results` array of the geocoding
response (`data.get("results") or []`).  Mirrors the source: empty results
raise the not-found `ValueError`; otherwise candidates are filtered by
country code, and an empty filtered set raises the ambiguity `ValueError`;
otherwise the best-scoring candidate (first on ties) is chosen. -/
def get_lat_lon (city ccReq : String) (results : List Candidate) :
    Except GeoError Location :=
  if results.isEmpty then .error .notFound
  else
    let cc := pyUpper ccReq
    let candidates := results.filter (matchesCC cc)
    match pickBest (score cc) candidates with
    | none => .error .ambiguous
    | some chosen => .ok (mkLocation city chosen)

/-- The country re-validation of `run_pipeline` (and its duplicate in
`weather_etl_flow`): `loc.country_code.upper() != country_code.upper()`.
`true` means the guard fires (the `ValueError` branch is taken); a `None`
country code, on which Python would raise `AttributeError`, is likewise
modelled as a failing check. -/
def security_check (ccReq : String) (loc : Location) : Bool :=
  match loc.country_code with
  | some s => pyUpper s != pyUpper ccReq
  | none => true

/-- One raw cell of an hourly array, as staged before any coercion.
`num` is any value `pd.to_numeric` accepts (numbers and numeric strings),
`ts` any value `pd.to_datetime` accepts, `text` unparseable junk and `null`
a missing value. -/
inductive Cell where
  | null : Cell
  | num : ℚ → Cell
  | ts : Nat → Cell
  | text : String → Cell
deriving DecidableEq

/-- `pd.to_numeric(_, errors="coerce")` on one cell: non-numeric input
becomes null (NaN). -/
def to_numeric : Cell → Option ℚ
  | .num q => some q
  | _ => none

/-- `pd.to_datetime(_, errors="coerce")` on one cell: non-temporal input
becomes null (NaT). -/
def to_datetime : Cell → Option Nat
  | .ts t => some t
  | _ => none

/-- One row of the staging DataFrame built by `to_staging_df`: the five raw
hourly columns plus the location metadata and provenance columns. -/
structure StagedRow where
  time : Cell
  temperature_2m : Cell
  relative_humidity_2m : Cell
  precipitation : Cell
  windspeed_10m : Cell
  location_name : String
  city_input : String
  country_code : Option String
  latitude : Int
  longitude : Int
  timezone_name : String
  source : String
  ingested_at_utc : Nat
deriving DecidableEq

/-- A staged row after the column-wise coercions of `transform`. -/
structure CoercedRow where
  time : Option Nat
  temperature_2m : Option ℚ
  relative_humidity_2m : Option ℚ
  precipitation : Option ℚ
  windspeed_10m : Option ℚ
  location_name : String
  city_input : String
  country_code : Option String
  latitude : Int
  longitude : Int
  timezone_name : String
  source : String
  ingested_at_utc : Nat
deriving DecidableEq

/-- A curated row: survivors of the null-drop gate with the derived feature
columns.  Remaining nulls are `none` (the `.where(pd.notnull, None)` step). -/
structure CuratedRow where
  time : Nat
  temperature_2m : ℚ
  relative_humidity_2m : Option ℚ
  precipitation : Option ℚ
  windspeed_10m : Option ℚ
  location_name : String
  city_input : String
  country_code : Option String
  latitude : Int
  longitude : Int
  timezone_name : String
  source : String
  ingested_at_utc : Nat
  is_rain : Bool
  date : Nat
  hour : Nat
deriving DecidableEq

/-- The `hourly` object of the forecast response; each array may be absent. -/
structure HourlyBlock where
  time : Option (List Cell)
  temperature_2m : Option (List Cell)
  relative_humidity_2m : Option (List Cell)
  precipitation : Option (List Cell)
  windspeed_10m : Option (List Cell)
deriving DecidableEq

/-- The forecast response body; the `hourly` key may be absent. -/
structure WeatherJson where
  hourly : Option HourlyBlock
deriving DecidableEq

/-- Index-wise zip of the five hourly arrays into staged rows, attaching the
same location metadata, timezone name, provenance tag and ingestion timestamp
to every row.  Only invoked on arrays of equal length. -/
def zipRows (loc : Location) (tzName : String) (now : Nat) :
    List Cell → List Cell → List Cell → List Cell → List Cell → List StagedRow
  | t :: ts, a :: as, b :: bs, c :: cs, d :: ds =>
      { time := t
        temperature_2m := a
        relative_humidity_2m := b
        precipitation := c
        windspeed_10m := d
        location_name := loc.location_name
        city_input := loc.city_input
        country_code := loc.country_code
        latitude := loc.latitude
        longitude := loc.longitude
        timezone_name := tzName
        source := "open-meteo"
        ingested_at_utc := now } :: zipRows loc tzName now ts as bs cs ds
  | _, _, _, _, _ => []

/-- `to_staging_df`.  `weather_json.get("hourly") or {}` and
`hourly.get(key, [])` make each absent array empty; the `pd.DataFrame`
column constructor then demands that all five columns have equal length and
raises `ValueError("All arrays must be of the same length")` otherwise.
`now` is the `datetime.now(timezone.utc)` capture (once per build). -/
def to_staging_df (w : WeatherJson) (loc : Location) (tzName : String)
    (now : Nat) : Except String (List StagedRow) :=
  let h := w.hourly.getD ⟨none, none, none, none, none⟩
  let tc := h.time.getD []
  let te := h.temperature_2m.getD []
  let hu := h.relative_humidity_2m.getD []
  let pr := h.precipitation.getD []
  let wi := h.windspeed_10m.getD []
  if tc.length = te.length ∧ te.length = hu.length
      ∧ hu.length = pr.length ∧ pr.length = wi.length then
    .ok (zipRows loc tzName now tc te hu pr wi)
  else
    .error "All arrays must be of the same length"

/-- The column-wise coercions of `transform` on one row. -/
def coerceRow (r : StagedRow) : CoercedRow :=
  { time := to_datetime r.time
    temperature_2m := to_numeric r.temperature_2m
    relative_humidity_2m := to_numeric r.relative_humidity_2m
    precipitation := to_numeric r.precipitation
    windspeed_10m := to_numeric r.windspeed_10m
    location_name := r.location_name
    city_input := r.city_input
    country_code := r.country_code
    latitude := r.latitude
    longitude := r.longitude
    timezone_name := r.timezone_name
    source := r.source
    ingested_at_utc := r.ingested_at_utc }

/-- The quality gate `dropna(subset=["time", "temperature_2m"])`. -/
def keepRow (r : CoercedRow) : Bool :=
  r.time.isSome && r.temperature_2m.isSome

/-- The feature derivations of `transform` on one surviving row:
`is_rain = precipitation.fillna(0) > 0` (the column itself keeps its null),
`date`/`hour` from the coerced time.  `time`/`temperature_2m` are non-null on
every row this is applied to, so the `getD` defaults are never exercised. -/
def featurize (r : CoercedRow) : CuratedRow :=
  { time := r.time.getD 0
    temperature_2m := r.temperature_2m.getD 0
    relative_humidity_2m := r.relative_humidity_2m
    precipitation := r.precipitation
    windspeed_10m := r.windspeed_10m
    location_name := r.location_name
    city_input := r.city_input
    country_code := r.country_code
    latitude := r.latitude
    longitude := r.longitude
    timezone_name := r.timezone_name
    source := r.source
    ingested_at_utc := r.ingested_at_utc
    is_rain := decide (0 < r.precipitation.getD 0)
    date := r.time.getD 0 / 24
    hour := r.time.getD 0 % 24 }

/-- `transform`, in the source's column-wise stages: coerce every row, drop
rows whose coerced `time` or `temperature_2m` is null, derive features. -/
def transform (rows : List StagedRow) : List CuratedRow :=
  (((rows.map coerceRow).filter keepRow).map featurize)

/-- A BSON scalar value of a persisted document. -/
inductive Value where
  | str : String → Value
  | num : ℚ → Value
  | time : Nat → Value
  | boolean : Bool → Value
  | null : Value
deriving DecidableEq

/-- A BSON document: an ordered association list of fields. -/
abbrev Doc := List (String × Value)

/-- The `(location_name, time)` upsert filter of one `UpdateOne`. -/
abbrev Key := Option Value × Option Value

/-- The collection: documents keyed by their `(location_name, time)` pair
(the unique index `uq_location_time` makes this pair a primary key). -/
abbrev Store := List (Key × Doc)

/-- Association-list lookup (first matching key). -/
def alookup {κ ν : Type} [DecidableEq κ] (k : κ) : List (κ × ν) → Option ν
  | [] => none
  | (g, v) :: m => if g = k then some v else alookup k m

/-- Association-list update: overwrite in place, append a new key at the end.
This is both MongoDB's `$set` on one field and the keyed collection update. -/
def aset {κ ν : Type} [DecidableEq κ] (m : List (κ × ν)) (k : κ) (v : ν) :
    List (κ × ν) :=
  match m with
  | [] => [(k, v)]
  | (g, w) :: m => if g = k then (g, v) :: m else (g, w) :: aset m k v

/-- The first defined of two optional values (used to state that `$set`
merges: the update's field wins, otherwise the old document's survives). -/
def firstSome {ν : Type} (a b : Option ν) : Option ν :=
  match a with
  | some v => some v
  | none => b

/-- MongoDB `$set` with update document `upd`: set each field in order. -/
def setFields (d : Doc) (upd : Doc) : Doc :=
  upd.foldl (fun acc p => aset acc p.1 p.2) d

/-- The upsert key extracted from a record:
`{"location_name": d["location_name"], "time": d["time"]}`. -/
def docKey (d : Doc) : Key := (alookup "location_name" d, alookup "time" d)

/-- The result counters of a bulk write (`matched_count`, `modified_count`,
`len(upserted_ids)`).  `modified` counts only documents whose content
actually changed, as the MongoDB delegate defines it. -/
structure WriteResult where
  matched : Nat
  modified : Nat
  upserted : Nat
deriving DecidableEq

/-- Application of the `UpdateOne(key, {"$set": d}, upsert=True)` operations:
a matched document is `$set`-updated in place (counted as modified only when
its content changes); an unmatched key inserts the `$set` document. -/
def bulk_write_aux (st : Store) (r : WriteResult) : List Doc → Store × WriteResult
  | [] => (st, r)
  | d :: ds =>
    match alookup (docKey d) st with
    | some old =>
        bulk_write_aux (aset st (docKey d) (setFields old d))
          { r with matched := r.matched + 1
                   modified := r.modified + (if setFields old d = old then 0 else 1) } ds
    | none =>
        bulk_write_aux (aset st (docKey d) (setFields [] d))
          { r with upserted := r.upserted + 1 } ds

/-- `col.bulk_write(ops, ordered=False)` on the records of one invocation. -/
def bulk_write (st : Store) (docs : List Doc) : Store × WriteResult :=
  bulk_write_aux st ⟨0, 0, 0⟩ docs

/-- The outcome of one `load_to_mongo` call: the collection afterwards, the
returned counters, and whether a client connection was opened. -/
structure LoadResult where
  store : Store
  result : WriteResult
  connected : Bool
deriving DecidableEq

/-- `load_to_mongo`: an empty record list returns all-zero counters before
`get_mongo_client()` is ever called; otherwise the records are bulk-upserted
over an opened connection. -/
def load_to_mongo (st : Store) (docs : List Doc) : LoadResult :=
  if docs.isEmpty then ⟨st, ⟨0, 0, 0⟩, false⟩
  else ⟨(bulk_write st docs).1, (bulk_write st docs).2, true⟩

/-- A stored document carrying a field (`"legacy"`) that later records do not
carry, for probing replace-versus-merge behaviour. -/
def legacyDoc : Doc :=
  [("location_name", .str "A"), ("time", .time 0), ("legacy", .num 7)]

/-- A fresh record for the key of `legacyDoc`, without a `"legacy"` field. -/
def freshRecord : Doc :=
  [("location_name", .str "A"), ("time", .time 0), ("temperature_2m", .num 20)]

/-- A collection already holding `legacyDoc` under its key. -/
def storeWithLegacy : Store :=
  [((some (.str "A"), some (.time 0)), legacyDoc)]

/-- Two distinct records sharing one `(location_name, time)` key. -/
def recA : Doc :=
  [("location_name", .str "A"), ("time", .time 0), ("temperature_2m", .num 20)]

/-- Second record for the key of `recA`, with a different temperature. -/
def recB : Doc :=
  [("location_name", .str "A"), ("time", .time 0), ("temperature_2m", .num 21)]

/-- A sample resolved location for staging-builder inputs. -/
def sampleLoc : Location :=
  { city_input := "San Jose"
    country_code := some "CR"
    location_name := "San Jose, San Jose, Costa Rica"
    latitude := 9
    longitude := -84 }

/-- A Costa Rican geocoding candidate for witness instances. -/
def sjCR : Candidate :=
  { name := some "San Jose"
    country_code := some "CR"
    country := some "Costa Rica"
    admin1 := some "San Jose"
    latitude := 9
    longitude := -84 }

/-- An hourly block with every array absent. -/
def emptyHourly : HourlyBlock := ⟨none, none, none, none, none⟩

/-- An hourly block with one time entry and every other array absent. -/
def timeOnlyHourly : HourlyBlock := ⟨some [Cell.ts 0], none, none, none, none⟩

/-- `sjCR` without its admin-region field, for the C6 ranking scenario. -/
def sjNoAdmin : Candidate := { sjCR with admin1 := none }

/-- A staged row with a valid time, valid temperature and positive
precipitation, for witness instances. -/
def sampleStaged : StagedRow :=
  { time := .ts 5
    temperature_2m := .num 20
    relative_humidity_2m := .num 80
    precipitation := .num 1
    windspeed_10m := .null
    location_name := "San Jose, San Jose, Costa Rica"
    city_input := "San Jose"
    country_code := some "CR"
    latitude := 9
    longitude := -84
    timezone_name := "America/Costa_Rica"
    source := "open-meteo"
    ingested_at_utc := 0 }

/-! ### Helper lemmas -/

theorem pyUpper_ne_empty {s : String} (h : s ≠ "") : pyUpper s ≠ "" := by
  obtain ⟨l⟩ := s
  intro hc
  apply h
  have hd : List.map Char.toUpper l = [] := congrArg String.data hc
  have hl : l = [] := List.map_eq_nil_iff.mp hd
  subst hl
  rfl

theorem le_of_head_decomp {α : Type} (f : α → Nat) {x b : α} {l l₁ l₂ : List α}
    (heq : x :: l = l₁ ++ b :: l₂) (hlt : ∀ y ∈ l₁, f y < f b) : f x ≤ f b := by
  cases l₁ with
  | nil =>
    simp only [List.nil_append, List.cons.injEq] at heq
    exact le_of_eq (congrArg f heq.1)
  | cons c l₁ =>
    simp only [List.cons_append, List.cons.injEq] at heq
    have hc := hlt c (by simp)
    rw [heq.1]
    exact le_of_lt hc

theorem bestAux_spec {α : Type} (f : α → Nat) :
    ∀ (l : List α) (a : α), ∃ l₁ l₂, a :: l = l₁ ++ bestAux f a l :: l₂
      ∧ (∀ x ∈ l₁, f x < f (bestAux f a l))
      ∧ (∀ x ∈ l₂, f x ≤ f (bestAux f a l)) := by
  intro l
  induction l with
  | nil => intro a; exact ⟨[], [], rfl, by simp, by simp⟩
  | cons x l ih =>
    intro a
    by_cases hx : f x > f a
    · have hrw : bestAux f a (x :: l) = bestAux f x l := by
        simp [bestAux, hx]
      obtain ⟨l₁, l₂, heq, hlt, hle⟩ := ih x
      have hxb : f x ≤ f (bestAux f x l) := le_of_head_decomp f heq hlt
      refine ⟨a :: l₁, l₂, ?_, ?_, by rw [hrw]; exact hle⟩
      · rw [hrw, List.cons_append, ← heq]
      · intro y hy
        rw [hrw]
        rcases List.mem_cons.mp hy with h | h
        · subst h; exact lt_of_lt_of_le hx hxb
        · exact hlt y h
    · have hrw : bestAux f a (x :: l) = bestAux f a l := by
        simp [bestAux, hx]
      obtain ⟨l₁, l₂, heq, hlt, hle⟩ := ih a
      cases l₁ with
      | nil =>
        simp only [List.nil_append, List.cons.injEq] at heq
        refine ⟨[], x :: l₂, ?_, by simp, ?_⟩
        · rw [hrw, List.nil_append, ← heq.1, heq.2]
        · intro y hy
          rw [hrw]
          rcases List.mem_cons.mp hy with h | h
          · subst h; rw [← heq.1]; exact Nat.le_of_not_lt hx
          · exact hle y h
      | cons c l₁ =>
        simp only [List.cons_append, List.cons.injEq] at heq
        refine ⟨a :: x :: l₁, l₂, ?_, ?_, by rw [hrw]; exact hle⟩
        · rw [hrw]
          simp only [List.cons_append]
          rw [← heq.2]
        · intro y hy
          rw [hrw]
          have hc : f c < f (bestAux f a l) := hlt c (by simp)
          have ha' : f a < f (bestAux f a l) := by
            have hfa : f a = f c := congrArg f heq.1
            omega
          rcases List.mem_cons.mp hy with h | h
          · subst h; exact ha'
          · rcases List.mem_cons.mp h with h' | h'
            · subst h'; exact lt_of_le_of_lt (Nat.le_of_not_lt hx) ha'
            · exact hlt y (by simp [h'])

theorem pickBest_spec {α : Type} (f : α → Nat) (l : List α) (c : α)
    (h : pickBest f l = some c) :
    ∃ l₁ l₂, l = l₁ ++ c :: l₂ ∧ (∀ x ∈ l₁, f x < f c)
      ∧ (∀ x ∈ l₂, f x ≤ f c) := by
  cases l with
  | nil => simp [pickBest] at h
  | cons a l =>
    have hc : bestAux f a l = c := by simpa [pickBest] using h
    subst hc
    exact bestAux_spec f l a

theorem get_lat_lon_ok_decomp {city ccReq : String} {results : List Candidate}
    {loc : Location} (h : get_lat_lon city ccReq results = .ok loc) :
    ∃ c l₁ l₂, loc = mkLocation city c
      ∧ results.filter (matchesCC (pyUpper ccReq)) = l₁ ++ c :: l₂
      ∧ (∀ x ∈ l₁, score (pyUpper ccReq) x < score (pyUpper ccReq) c)
      ∧ (∀ x ∈ l₂, score (pyUpper ccReq) x ≤ score (pyUpper ccReq) c) := by
  by_cases hres : results.isEmpty = true
  · simp [get_lat_lon, hres] at h
  · simp only [get_lat_lon, hres, if_false, Bool.false_eq_true, if_neg] at h
    cases hpick : pickBest (score (pyUpper ccReq))
        (results.filter (matchesCC (pyUpper ccReq))) with
    | none => rw [hpick] at h; simp at h
    | some chosen =>
      rw [hpick] at h
      simp only [Except.ok.injEq] at h
      obtain ⟨l₁, l₂, heq, hlt, hle⟩ := pickBest_spec _ _ _ hpick
      exact ⟨chosen, l₁, l₂, h.symm, heq, hlt, hle⟩

/-! ### Claim theorems: geocoding resolver -/

/-- C3: `get_lat_lon` fails not-found exactly when the response carries no
candidates, fails ambiguous when candidates exist but none matches the
requested country code case-insensitively, and on success the returned
location is built from a candidate inside the matching set — never from a
candidate outside the requested country. -/
theorem get_lat_lon_error_cases (city ccReq : String) (results : List Candidate) :
    (results = [] → get_lat_lon city ccReq results = .error .notFound)
    ∧ (results ≠ [] → results.filter (matchesCC (pyUpper ccReq)) = [] →
        get_lat_lon city ccReq results = .error .ambiguous)
    ∧ (∀ loc, get_lat_lon city ccReq results = .ok loc →
        ∃ c, c ∈ results ∧ matchesCC (pyUpper ccReq) c = true
          ∧ loc = mkLocation city c) := by
  refine ⟨?_, ?_, ?_⟩
  · rintro rfl; rfl
  · intro hne hfil
    have hie : results.isEmpty = false := by
      cases results with
      | nil => exact absurd rfl hne
      | cons a l => rfl
    simp [get_lat_lon, hie, hfil, pickBest]
  · intro loc h
    obtain ⟨c, l₁, l₂, hloc, hfil, -, -⟩ := get_lat_lon_ok_decomp h
    have hmem : c ∈ results.filter (matchesCC (pyUpper ccReq)) := by
      rw [hfil]; simp
    have hfm := List.mem_filter.mp hmem
    exact ⟨c, hfm.1, hfm.2, hloc⟩

/-- Witness for C3 at concrete inputs: an empty response, a response whose
single candidate is in the wrong country, and a successful resolution. -/
theorem get_lat_lon_error_cases_witness :
    get_lat_lon "San Jose" "CR" [] = .error .notFound
    ∧ get_lat_lon "San Jose" "CR"
        [{ name := some "San Jose"
           country_code := some "US"
           country := some "United States"
           admin1 := some "California"
           latitude := 37
           longitude := -121 }] = .error .ambiguous
    ∧ (∃ c, c ∈ [sjCR] ∧ matchesCC (pyUpper "CR") c = true
          ∧ mkLocation "San Jose" sjCR = mkLocation "San Jose" c) :=
  ⟨(get_lat_lon_error_cases "San Jose" "CR" []).1 rfl,
   (get_lat_lon_error_cases "San Jose" "CR" _).2.1 (by decide) (by decide),
   (get_lat_lon_error_cases "San Jose" "CR" [sjCR]).2.2 _ rfl⟩

/-- C5 counterexample: the +5 bonus is not tied to the display name of the
requested country.  Requesting `US`, a candidate whose country display name
is `"Costa Rica"` (not the display name of the US) still receives the bonus
(score 15 = 10 + 5); requesting `FR`, a candidate whose display name
`"France"` is the display name of the requested country receives no bonus
(score 10). -/
theorem score_country_bonus_counterexample :
    score "US" { name := some "San Jose"
                 country_code := some "US"
                 country := some "Costa Rica"
                 admin1 := none
                 latitude := 37
                 longitude := -121 } = 15
    ∧ score "FR" { name := some "Paris"
                   country_code := some "FR"
                   country := some "France"
                   admin1 := none
                   latitude := 48
                   longitude := 2 } = 10 := by decide

/-- C5 amended: for every requested country code, a candidate receives the
+5 bonus iff its country display name lowercases to `"costa rica"` (or with
a trailing space) — the check is hard-coded to Costa Rica and independent of
the requested country. -/
theorem score_country_bonus_hardcoded (cc : String) (x : Candidate) :
    score cc x = score cc { x with country := none }
      + (if pyLower (x.country.getD "") = "costa rica"
            ∨ pyLower (x.country.getD "") = "costa rica " then 5 else 0) := by
  have hnone : ¬(pyLower "" = "costa rica" ∨ pyLower "" = "costa rica ") := by
    decide
  by_cases h1 : pyUpper (x.country_code.getD "") = cc <;>
    by_cases h2 : pyLower (x.country.getD "") = "costa rica"
      ∨ pyLower (x.country.getD "") = "costa rica " <;>
    by_cases h3 : truthy x.admin1 = true <;>
    simp [score, h1, h2, h3, hnone]

/-- C6: on every successful resolution the chosen candidate is the first
element of the filtered list (in the geocoding service's original order)
attaining the maximal score — everything before it scores strictly lower and
everything after it scores no higher; and in particular, of two matching
candidates identical except that one carries a (truthy) admin-region field,
the one with the admin region is selected, in either input order. -/
theorem get_lat_lon_first_max (city ccReq : String) :
    (∀ results loc, get_lat_lon city ccReq results = .ok loc →
      ∃ c l₁ l₂, loc = mkLocation city c
        ∧ results.filter (matchesCC (pyUpper ccReq)) = l₁ ++ c :: l₂
        ∧ (∀ x ∈ l₁, score (pyUpper ccReq) x < score (pyUpper ccReq) c)
        ∧ (∀ x ∈ l₂, score (pyUpper ccReq) x ≤ score (pyUpper ccReq) c))
    ∧ (∀ c a, a ≠ "" → c.admin1 = none → matchesCC (pyUpper ccReq) c = true →
        get_lat_lon city ccReq [c, { c with admin1 := some a }]
          = .ok (mkLocation city { c with admin1 := some a })
        ∧ get_lat_lon city ccReq [{ c with admin1 := some a }, c]
          = .ok (mkLocation city { c with admin1 := some a })) := by
  constructor
  · intro results loc h
    exact get_lat_lon_ok_decomp h
  · intro c a ha hadm hm
    have hm' : matchesCC (pyUpper ccReq) { c with admin1 := some a } = true := hm
    have hbump : score (pyUpper ccReq) { c with admin1 := some a }
        = score (pyUpper ccReq) c + 1 := by
      simp [score, truthy, hadm, ha]
    constructor
    · simp [get_lat_lon, List.filter, hm, hm', pickBest, bestAux, hbump]
    · simp [get_lat_lon, List.filter, hm, hm', pickBest, bestAux, hbump]

/-- Witness for C6: a single-candidate resolution decomposes as required,
and the admin-region variant of `sjNoAdmin` wins in either order. -/
theorem get_lat_lon_first_max_witness :
    (∃ c l₁ l₂, mkLocation "San Jose" sjCR = mkLocation "San Jose" c
      ∧ [sjCR].filter (matchesCC (pyUpper "CR")) = l₁ ++ c :: l₂
      ∧ (∀ x ∈ l₁, score (pyUpper "CR") x < score (pyUpper "CR") c)
      ∧ (∀ x ∈ l₂, score (pyUpper "CR") x ≤ score (pyUpper "CR") c))
    ∧ (get_lat_lon "San Jose" "CR"
          [sjNoAdmin, { sjNoAdmin with admin1 := some "Alajuela" }]
        = .ok (mkLocation "San Jose" { sjNoAdmin with admin1 := some "Alajuela" })
      ∧ get_lat_lon "San Jose" "CR"
          [{ sjNoAdmin with admin1 := some "Alajuela" }, sjNoAdmin]
        = .ok (mkLocation "San Jose" { sjNoAdmin with admin1 := some "Alajuela" })) :=
  ⟨(get_lat_lon_first_max "San Jose" "CR").1 [sjCR] _ rfl,
   (get_lat_lon_first_max "San Jose" "CR").2 sjNoAdmin "Alajuela"
     (by decide) rfl (by decide)⟩

/-- C10: whenever the requested country code is non-empty and `get_lat_lon`
succeeds, the returned location carries a country code whose uppercasing
equals the uppercased request — hence the orchestrator's re-validation guard
(`security_check`, duplicated in the Prefect flow) can never fire after a
successful resolution. -/
theorem resolved_country_code_matches (city ccReq : String)
    (results : List Candidate) (loc : Location)
    (hcc : ccReq ≠ "") (h : get_lat_lon city ccReq results = .ok loc) :
    (∃ s, loc.country_code = some s ∧ pyUpper s = pyUpper ccReq)
    ∧ security_check ccReq loc = false := by
  obtain ⟨c, l₁, l₂, hloc, hfil, -, -⟩ := get_lat_lon_ok_decomp h
  have hmem : c ∈ results.filter (matchesCC (pyUpper ccReq)) := by
    rw [hfil]; simp
  have hm : matchesCC (pyUpper ccReq) c = true := (List.mem_filter.mp hmem).2
  have heq : pyUpper (c.country_code.getD "") = pyUpper ccReq := by
    simpa [matchesCC] using hm
  cases hcode : c.country_code with
  | none =>
    exfalso
    rw [hcode] at heq
    have hemp : pyUpper ccReq = "" := heq.symm
    exact pyUpper_ne_empty hcc hemp
  | some s =>
    rw [hcode] at heq
    simp only [Option.getD_some] at heq
    have hlc : loc.country_code = some s := by
      rw [hloc]
      exact hcode
    refine ⟨⟨s, hlc, heq⟩, ?_⟩
    simp [security_check, hlc, heq]

/-- Witness for C10: resolving `"CR"` against a Costa Rican candidate yields
a matching country code, and the orchestrator guard does not fire. -/
theorem resolved_country_code_matches_witness :
    (∃ s, (mkLocation "San Jose" sjCR).country_code = some s
      ∧ pyUpper s = pyUpper "CR")
    ∧ security_check "CR" (mkLocation "San Jose" sjCR) = false :=
  resolved_country_code_matches "San Jose" "CR" [sjCR] _ (by decide) rfl

/-! ### Claim theorems: staging builder -/

/-- C4 counterexample: a payload in which only some hourly arrays are missing
(here `time` is present and non-empty, the other four absent) does not
produce a result — the DataFrame constructor fails on the length mismatch,
contrary to the claim that any missing arrays are treated as empty without
an error. -/
theorem to_staging_df_partial_missing_counterexample :
    to_staging_df { hourly := some timeOnlyHourly } sampleLoc
        "America/Costa_Rica" 0
      = .error "All arrays must be of the same length" := rfl

/-- C4 amended: an absent `hourly` key and a payload with all five arrays
missing each produce zero rows without an error; but a payload where `time`
is present and non-empty while `temperature_2m` is missing fails with the
length-mismatch error — missing arrays are only harmless when nothing
non-empty remains to mismatch them. -/
theorem to_staging_df_missing_arrays (loc : Location) (tz : String) (now : Nat) :
    (to_staging_df { hourly := none } loc tz now = .ok [])
    ∧ (∀ h : HourlyBlock, h.time = none → h.temperature_2m = none →
        h.relative_humidity_2m = none → h.precipitation = none →
        h.windspeed_10m = none →
        to_staging_df { hourly := some h } loc tz now = .ok [])
    ∧ (∀ (h : HourlyBlock) (x : Cell) (xs : List Cell),
        h.time = some (x :: xs) → h.temperature_2m = none →
        to_staging_df { hourly := some h } loc tz now
          = .error "All arrays must be of the same length") := by
  refine ⟨rfl, ?_, ?_⟩
  · intro h h1 h2 h3 h4 h5
    simp [to_staging_df, h1, h2, h3, h4, h5, zipRows]
  · intro h x xs h1 h2
    simp [to_staging_df, h1, h2]

/-- Witness for C4 at concrete inputs: absent hourly key, all-absent arrays,
and a partially-missing payload. -/
theorem to_staging_df_missing_arrays_witness :
    to_staging_df { hourly := none } sampleLoc "America/Costa_Rica" 0 = .ok []
    ∧ to_staging_df { hourly := some emptyHourly } sampleLoc
        "America/Costa_Rica" 0 = .ok []
    ∧ to_staging_df { hourly := some timeOnlyHourly } sampleLoc
        "America/Costa_Rica" 0
      = .error "All arrays must be of the same length" :=
  ⟨(to_staging_df_missing_arrays sampleLoc "America/Costa_Rica" 0).1,
   (to_staging_df_missing_arrays sampleLoc "America/Costa_Rica" 0).2.1
     emptyHourly rfl rfl rfl rfl rfl,
   (to_staging_df_missing_arrays sampleLoc "America/Costa_Rica" 0).2.2
     timeOnlyHourly (Cell.ts 0) [] rfl rfl⟩

/-! ### Claim theorems: transformer -/

/-- C7: `transform` is exactly filter-then-map over the input rows — it keeps,
in input order, precisely the rows whose coerced `time` and `temperature_2m`
are both non-null, applies the row-wise coercion and feature derivation to
each survivor, and the output length plus the number of dropped rows equals
the input length. -/
theorem transform_null_drop (rows : List StagedRow) :
    transform rows
      = (rows.filter (fun r => (to_datetime r.time).isSome
          && (to_numeric r.temperature_2m).isSome)).map
            (fun r => featurize (coerceRow r))
    ∧ (transform rows).length
        + (rows.filter (fun r => !((to_datetime r.time).isSome
            && (to_numeric r.temperature_2m).isSome))).length
      = rows.length := by
  have hmain : transform rows
      = (rows.filter (fun r => (to_datetime r.time).isSome
          && (to_numeric r.temperature_2m).isSome)).map
            (fun r => featurize (coerceRow r)) := by
    rw [transform, List.filter_map, List.map_map]
    have h1 : (keepRow ∘ coerceRow)
        = (fun r : StagedRow => (to_datetime r.time).isSome
            && (to_numeric r.temperature_2m).isSome) :=
      funext fun r => rfl
    have h2 : (featurize ∘ coerceRow)
        = (fun r : StagedRow => featurize (coerceRow r)) :=
      funext fun r => rfl
    rw [h1, h2]
  refine ⟨hmain, ?_⟩
  rw [hmain, List.length_map]
  exact (List.length_eq_length_filter_add
    (fun r : StagedRow => (to_datetime r.time).isSome
      && (to_numeric r.temperature_2m).isSome)).symm

/-- C8: in every row of the curated output, `is_rain` holds iff the row's
coerced precipitation, with a missing value read as 0, is strictly
positive. -/
theorem transform_is_rain_iff (rows : List StagedRow) (c : CuratedRow)
    (hc : c ∈ transform rows) :
    c.is_rain = true ↔ 0 < c.precipitation.getD 0 := by
  rw [transform] at hc
  obtain ⟨r, hr, hfc⟩ := List.mem_map.mp hc
  subst hfc
  simp [featurize]

/-- Witness for C8: the curated row produced from `sampleStaged`. -/
theorem transform_is_rain_iff_witness :
    (featurize (coerceRow sampleStaged)).is_rain = true
      ↔ 0 < (featurize (coerceRow sampleStaged)).precipitation.getD 0 :=
  transform_is_rain_iff [sampleStaged] _ (by decide)

/-! ### Association-map lemmas for the store model -/

theorem alookup_aset {κ ν : Type} [DecidableEq κ] (m : List (κ × ν))
    (k k' : κ) (v : ν) :
    alookup k' (aset m k v) = if k = k' then some v else alookup k' m := by
  induction m with
  | nil => simp [aset, alookup]
  | cons p m ih =>
    obtain ⟨g, w⟩ := p
    by_cases hg : g = k
    · subst hg
      simp only [aset, if_pos rfl]
      by_cases hf : g = k'
      · subst hf; simp [alookup]
      · simp [alookup, hf]
    · simp only [aset, if_neg hg]
      by_cases hf : g = k'
      · subst hf
        have hk : ¬(k = g) := fun hh => hg hh.symm
        simp [alookup, hk]
      · simp [alookup, hf, ih]

theorem aset_of_alookup {κ ν : Type} [DecidableEq κ] {m : List (κ × ν)}
    {k : κ} {v : ν} (h : alookup k m = some v) : aset m k v = m := by
  induction m with
  | nil => simp [alookup] at h
  | cons p m ih =>
    obtain ⟨g, w⟩ := p
    by_cases hg : g = k
    · subst hg
      simp [alookup] at h
      simp [aset, h]
    · simp only [alookup, if_neg hg] at h
      simp [aset, hg, ih h]

theorem alookup_eq_none_of_not_mem {κ ν : Type} [DecidableEq κ]
    {m : List (κ × ν)} {k : κ} (h : k ∉ m.map Prod.fst) :
    alookup k m = none := by
  induction m with
  | nil => rfl
  | cons p m ih =>
    obtain ⟨g, w⟩ := p
    simp only [List.map_cons, List.mem_cons, not_or] at h
    have hg : ¬(g = k) := fun hh => h.1 hh.symm
    simp [alookup, hg, ih h.2]

theorem alookup_of_mem_nodup {κ ν : Type} [DecidableEq κ]
    {m : List (κ × ν)} {k : κ} {v : ν}
    (hnd : (m.map Prod.fst).Nodup) (hmem : (k, v) ∈ m) :
    alookup k m = some v := by
  induction m with
  | nil => simp at hmem
  | cons p m ih =>
    obtain ⟨g, w⟩ := p
    have hnd' : (g :: m.map Prod.fst).Nodup := hnd
    have hcons := List.nodup_cons.mp hnd'
    rcases List.mem_cons.mp hmem with h | h
    · obtain ⟨rfl, rfl⟩ := Prod.mk.injEq .. ▸ h
      simp [alookup]
    · have hg : ¬(g = k) := by
        intro hh
        subst hh
        exact hcons.1 (List.mem_map.mpr ⟨(g, v), h, rfl⟩)
      simp only [alookup, if_neg hg]
      exact ih hcons.2 h

theorem setFields_cons (d : Doc) (g : String) (w : Value) (upd : Doc) :
    setFields d ((g, w) :: upd) = setFields (aset d g w) upd := rfl

theorem alookup_setFields : ∀ (upd : Doc), (upd.map Prod.fst).Nodup →
    ∀ (d : Doc) (f : String),
      alookup f (setFields d upd) = firstSome (alookup f upd) (alookup f d) := by
  intro upd
  induction upd with
  | nil => intro _ d f; simp [setFields, alookup, firstSome]
  | cons p upd ih =>
    intro hnd d f
    obtain ⟨g, w⟩ := p
    have hnd' : (g :: upd.map Prod.fst).Nodup := hnd
    have hcons := List.nodup_cons.mp hnd'
    rw [setFields_cons, ih hcons.2 (aset d g w) f, alookup_aset]
    by_cases hgf : g = f
    · subst hgf
      have hnone : alookup g upd = none := alookup_eq_none_of_not_mem hcons.1
      simp [alookup, hnone, firstSome]
    · simp [alookup, hgf, firstSome]

theorem setFields_eq_self : ∀ (upd d : Doc),
    (∀ p ∈ upd, alookup p.1 d = some p.2) → setFields d upd = d := by
  intro upd
  induction upd with
  | nil => intro d _; rfl
  | cons p upd ih =>
    intro d hall
    obtain ⟨g, w⟩ := p
    have h0 : alookup g d = some w := hall (g, w) (by simp)
    rw [setFields_cons, aset_of_alookup h0]
    exact ih d (fun q hq => hall q (by simp [hq]))

theorem setFields_idem {upd : Doc} (hnd : (upd.map Prod.fst).Nodup) (d : Doc) :
    setFields (setFields d upd) upd = setFields d upd := by
  apply setFields_eq_self
  intro p hp
  rw [alookup_setFields upd hnd]
  rw [alookup_of_mem_nodup hnd (by simpa using hp)]
  rfl

theorem bulk_write_aux_fresh :
    ∀ (docs : List Doc) (st : Store) (r : WriteResult),
      (docs.map docKey).Nodup →
      (∀ d ∈ docs, alookup (docKey d) st = none) →
      (bulk_write_aux st r docs).2
          = { r with upserted := r.upserted + docs.length }
      ∧ (∀ d ∈ docs, alookup (docKey d) (bulk_write_aux st r docs).1
          = some (setFields [] d))
      ∧ (∀ k, (∀ d ∈ docs, docKey d ≠ k) →
          alookup k (bulk_write_aux st r docs).1 = alookup k st) := by
  intro docs
  induction docs with
  | nil =>
    intro st r _ _
    exact ⟨rfl, by simp, fun k _ => rfl⟩
  | cons d ds ih =>
    intro st r hnd habs
    have hkey : alookup (docKey d) st = none := habs d (by simp)
    have hnd0 : (docKey d :: ds.map docKey).Nodup := hnd
    have hcons := List.nodup_cons.mp hnd0
    have hne : ∀ d' ∈ ds, docKey d' ≠ docKey d := by
      intro d' hd' hh
      exact hcons.1 (hh ▸ List.mem_map.mpr ⟨d', hd', rfl⟩)
    have hstep : bulk_write_aux st r (d :: ds)
        = bulk_write_aux (aset st (docKey d) (setFields [] d))
            { r with upserted := r.upserted + 1 } ds := by
      simp [bulk_write_aux, hkey]
    have habs' : ∀ d' ∈ ds,
        alookup (docKey d') (aset st (docKey d) (setFields [] d)) = none := by
      intro d' hd'
      rw [alookup_aset, if_neg (fun hh => hne d' hd' hh.symm)]
      exact habs d' (by simp [hd'])
    obtain ⟨ih1, ih2, ih3⟩ := ih (aset st (docKey d) (setFields [] d))
      { r with upserted := r.upserted + 1 } hcons.2 habs'
    refine ⟨?_, ?_, ?_⟩
    · rw [hstep, ih1]
      cases r with
      | mk ma mo up => simp [List.length_cons]; omega
    · intro d' hd'
      rcases List.mem_cons.mp hd' with h | h
      · subst h
        rw [hstep, ih3 (docKey d') hne, alookup_aset, if_pos rfl]
      · rw [hstep]
        exact ih2 d' h
    · intro k hk
      rw [hstep, ih3 k (fun d'' hd'' => hk d'' (by simp [hd'']))]
      rw [alookup_aset, if_neg (hk d (by simp))]

theorem bulk_write_aux_replay :
    ∀ (docs : List Doc) (st : Store) (r : WriteResult),
      (∀ d ∈ docs, (d.map Prod.fst).Nodup) →
      (∀ d ∈ docs, alookup (docKey d) st = some (setFields [] d)) →
      bulk_write_aux st r docs
        = (st, { r with matched := r.matched + docs.length }) := by
  intro docs
  induction docs with
  | nil => intro st r _ _; rfl
  | cons d ds ih =>
    intro st r hnd hstored
    have h0 : alookup (docKey d) st = some (setFields [] d) :=
      hstored d (by simp)
    have hidem : setFields (setFields [] d) d = setFields [] d :=
      setFields_idem (hnd d (by simp)) []
    have hset : aset st (docKey d) (setFields [] d) = st := aset_of_alookup h0
    have hstep : bulk_write_aux st r (d :: ds)
        = bulk_write_aux st { r with matched := r.matched + 1 } ds := by
      simp [bulk_write_aux, h0, hidem, hset]
    rw [hstep, ih st _ (fun d' h => hnd d' (by simp [h]))
      (fun d' h => hstored d' (by simp [h]))]
    cases r with
    | mk ma mo up => simp [List.length_cons]; omega

/-! ### Claim theorems: store / upsert layer -/

/-- C9: `load_to_mongo` on an empty record set returns all-zero counters,
opens no store connection, and leaves the store untouched. -/
theorem load_to_mongo_empty_noop (st : Store) :
    load_to_mongo st [] = ⟨st, ⟨0, 0, 0⟩, false⟩ := rfl

/-- C1 counterexample: after upserting `freshRecord` over a pre-existing
document with the same `(location_name, time)` key, the persisted document
still carries the old document's `"legacy"` field, which the new record does
not carry — `$set` merges, it does not fully replace. -/
theorem load_to_mongo_full_replace_counterexample :
    Option.bind (alookup (docKey freshRecord)
        (load_to_mongo storeWithLegacy [freshRecord]).store)
      (alookup "legacy")
      = some (Value.num 7)
    ∧ alookup "legacy" freshRecord = none := by decide

/-- C1 amended: upserting a record whose key matches an existing document
updates that document to the `$set` merge `setFields old d` — every field of
the record overwrites the existing document's field of the same name, and
every field of the existing document absent from the record survives —
while the call reports one matched document and no upsert. -/
theorem load_to_mongo_set_merges (st : Store) (d old : Doc)
    (hnd : (d.map Prod.fst).Nodup)
    (hold : alookup (docKey d) st = some old) :
    ∃ st' r, load_to_mongo st [d] = ⟨st', r, true⟩
      ∧ r.matched = 1 ∧ r.upserted = 0
      ∧ alookup (docKey d) st' = some (setFields old d)
      ∧ (∀ f, alookup f (setFields old d)
          = firstSome (alookup f d) (alookup f old)) := by
  have haux : bulk_write st [d]
      = (aset st (docKey d) (setFields old d),
         ⟨1, if setFields old d = old then 0 else 1, 0⟩) := by
    simp [bulk_write, bulk_write_aux, hold]
  refine ⟨aset st (docKey d) (setFields old d),
      ⟨1, if setFields old d = old then 0 else 1, 0⟩, ?_, rfl, rfl, ?_, ?_⟩
  · show (if ([d] : List Doc).isEmpty then (⟨st, ⟨0, 0, 0⟩, false⟩ : LoadResult)
      else ⟨(bulk_write st [d]).1, (bulk_write st [d]).2, true⟩) = _
    rw [if_neg (by simp), haux]
  · rw [alookup_aset, if_pos rfl]
  · intro f
    exact alookup_setFields d hnd old f

/-- Witness for C1's amended theorem at the `legacyDoc`/`freshRecord`
instance. -/
theorem load_to_mongo_set_merges_witness :
    ∃ st' r, load_to_mongo storeWithLegacy [freshRecord] = ⟨st', r, true⟩
      ∧ r.matched = 1 ∧ r.upserted = 0
      ∧ alookup (docKey freshRecord) st'
          = some (setFields legacyDoc freshRecord)
      ∧ (∀ f, alookup f (setFields legacyDoc freshRecord)
          = firstSome (alookup f freshRecord) (alookup f legacyDoc)) :=
  load_to_mongo_set_merges storeWithLegacy freshRecord legacyDoc
    (by decide) (by decide)

/-- C2 counterexample: for the two distinct records `recA`/`recB` sharing one
`(location_name, time)` key, the first call over an empty store upserts only
1 document (the claim demands `upserted == N = 2`), and the second identical
call modifies 2 documents (the claim demands `modified == 0`). -/
theorem load_to_mongo_idempotent_counterexample :
    recA ≠ recB
    ∧ (load_to_mongo [] [recA, recB]).result.upserted = 1
    ∧ (load_to_mongo (load_to_mongo [] [recA, recB]).store
        [recA, recB]).result.modified = 2 := by decide

/-- C2 amended: for every non-empty record list with pairwise-distinct
`(location_name, time)` keys and duplicate-free field names, against a store
initially lacking those keys, the first call reports
`{matched: 0, modified: 0, upserted: N}` and the second identical call
reports `{matched: N, modified: 0, upserted: 0}` and leaves the store
exactly as the first call left it. -/
theorem load_to_mongo_idempotent (st : Store) (docs : List Doc)
    (hne : docs ≠ [])
    (hkeys : (docs.map docKey).Nodup)
    (hflds : ∀ d ∈ docs, (d.map Prod.fst).Nodup)
    (habs : ∀ d ∈ docs, alookup (docKey d) st = none) :
    (load_to_mongo st docs).result = ⟨0, 0, docs.length⟩
    ∧ (load_to_mongo (load_to_mongo st docs).store docs).result
        = ⟨docs.length, 0, 0⟩
    ∧ (load_to_mongo (load_to_mongo st docs).store docs).store
        = (load_to_mongo st docs).store := by
  have hie : docs.isEmpty = false := by
    cases docs with
    | nil => exact absurd rfl hne
    | cons a l => rfl
  obtain ⟨h1, h2, h3⟩ := bulk_write_aux_fresh docs st ⟨0, 0, 0⟩ hkeys habs
  have hload : load_to_mongo st docs
      = ⟨(bulk_write st docs).1, (bulk_write st docs).2, true⟩ := by
    simp [load_to_mongo, hie]
  have hr1 : (load_to_mongo st docs).result = ⟨0, 0, docs.length⟩ := by
    rw [hload]
    show (bulk_write st docs).2 = _
    rw [bulk_write, h1]
    simp
  have hstored : ∀ d ∈ docs,
      alookup (docKey d) (load_to_mongo st docs).store
        = some (setFields [] d) := by
    intro d hd
    rw [hload]
    exact h2 d hd
  have hreplay := bulk_write_aux_replay docs (load_to_mongo st docs).store
    ⟨0, 0, 0⟩ hflds hstored
  have hload2 : load_to_mongo (load_to_mongo st docs).store docs
      = ⟨(bulk_write (load_to_mongo st docs).store docs).1,
         (bulk_write (load_to_mongo st docs).store docs).2, true⟩ := by
    simp [load_to_mongo, hie]
  refine ⟨hr1, ?_, ?_⟩
  · rw [hload2]
    show (bulk_write (load_to_mongo st docs).store docs).2 = _
    rw [bulk_write, hreplay]
    simp
  · rw [hload2]
    show (bulk_write (load_to_mongo st docs).store docs).1 = _
    rw [bulk_write, hreplay]

/-- Witness for C2's amended theorem on a one-record list against an empty
store. -/
theorem load_to_mongo_idempotent_witness :
    (load_to_mongo [] [recA]).result = ⟨0, 0, 1⟩
    ∧ (load_to_mongo (load_to_mongo [] [recA]).store [recA]).result
        = ⟨1, 0, 0⟩
    ∧ (load_to_mongo (load_to_mongo [] [recA]).store [recA]).store
        = (load_to_mongo [] [recA]).store :=
  load_to_mongo_idempotent [] [recA] (by decide) (by decide)
    (by decide) (by decide)

end WeatherPipeline
